import Mathlib

/-!
Shallow embedding of `src/stock_screener.py` (a Streamlit stock screener).

Modelling conventions:
* Python `float` prices and volumes are modelled as rationals (`ℚ`); the
  code never relies on float rounding.  Division is total on `ℚ` with
  `x / 0 = 0`; the code only divides by prices and bar counts, which are
  nonzero in every scenario exercised below.
* A pandas `DataFrame` of OHLCV rows after `dropna()` is a `List Bar`
  (rows with a missing field are not representable in `Bar`; `dropna`'s
  observable output is the cleaned row list, which is what the data
  provider hands over here).
* A pandas NaN entry of a rolling-mean column is `Option.none`; pandas
  comparisons against NaN are false, which `gtNaN` captures.
* Python strings are lists of characters (`List Char`); `pySplit`,
  `pyStrip`, `pyUpper` embed `str.split(",")`, `str.strip()` and
  `str.upper()` (ASCII case map, which covers ticker symbols).
* The `yfinance` download either raises (any exception) or returns bars:
  `Except Unit (List Bar)`.
-/

set_option maxRecDepth 4000

namespace StockScreener

/-- One OHLCV bar of daily market data (one row of the downloaded frame
after `dropna()`). -/
structure Bar where
  opn : ℚ
  high : ℚ
  low : ℚ
  close : ℚ
  volume : ℚ
deriving DecidableEq

/-- Arithmetic mean of a column, as `Series.mean()` computes it on a
non-empty column: sum divided by length.  (On an empty column pandas
yields NaN; the empty case is never relied upon below.) -/
def listMean (xs : List ℚ) : ℚ := xs.sum / (xs.length : ℚ)

/-- Maximum of a column, as `Series.max()` on a non-empty column. -/
def listMax : List ℚ → ℚ
  | [] => 0
  | x :: xs => xs.foldl max x

/-- Minimum of a column, as `Series.min()` on a non-empty column. -/
def listMin : List ℚ → ℚ
  | [] => 0
  | x :: xs => xs.foldl min x

/-- Value of `Series.rolling(w).mean()` at each index: the mean of the
trailing window of `w` values ending at the index, or `none` (pandas NaN)
while fewer than `w` values are available. -/
def rollingMean (w : Nat) (xs : List ℚ) : List (Option ℚ) :=
  (List.range xs.length).map (fun i =>
    if w ≤ i + 1 then some (((xs.take (i + 1)).drop (i + 1 - w)).sum / (w : ℚ)) else none)

/-- Line 33: `adr_percent(df)` — the per-bar series `(High - Low) / Close * 100`. -/
def adr_percent (bars : List Bar) : List ℚ :=
  bars.map (fun b => (b.high - b.low) / b.close * 100)

/-- Lines 36-39: `consolidation_score(df, lookback=10)` — on the last
`lookback` rows (`df.tail`), `(recent.High.max() - recent.Low.min()) / recent.Close.mean()`. -/
def consolidation_score (bars : List Bar) (lookback : Nat) : ℚ :=
  let recent := bars.drop (bars.length - lookback)
  (listMax (recent.map Bar.high) - listMin (recent.map Bar.low)) /
    listMean (recent.map Bar.close)

/-- The enriched frame produced by `fetch_data`: the cleaned bars plus the
three indicator columns `10SMA`, `20SMA`, `ADR%` added on lines 45-47. -/
structure Frame where
  bars : List Bar
  sma10 : List (Option ℚ)
  sma20 : List (Option ℚ)
  adr : List ℚ
deriving DecidableEq

/-- The `pd.DataFrame()` returned on line 50 when anything raised. -/
def Frame.emptyF : Frame := ⟨[], [], [], []⟩

/-- Lines 41-50: `fetch_data(ticker)` — download (which may raise) and
`dropna`, then attach the `10SMA`, `20SMA` and `ADR%` columns; any
exception yields the empty frame. -/
def fetch_data (raw : Except Unit (List Bar)) : Frame :=
  match raw with
  | Except.error _ => Frame.emptyF
  | Except.ok bars =>
    { bars := bars
      sma10 := rollingMean 10 (bars.map Bar.close)
      sma20 := rollingMean 20 (bars.map Bar.close)
      adr := adr_percent bars }

/-- Lines 45-47 re-executed on an already-enriched frame: recompute the
three indicator columns from the frame's bars and overwrite them. -/
def enrich (fr : Frame) : Frame :=
  { bars := fr.bars
    sma10 := rollingMean 10 (fr.bars.map Bar.close)
    sma20 := rollingMean 20 (fr.bars.map Bar.close)
    adr := adr_percent fr.bars }

/-- Lines 52-57: `percent_change(df, days)` — 0 when the frame has fewer
than `days` rows, else `(Close.iloc[-1] - Close.iloc[-days]) / Close.iloc[-days] * 100`;
`iloc[-days]` is position `len - days`.  All call sites pass a positive `days`. -/
def percent_change (bars : List Bar) (days : Nat) : ℚ :=
  if bars.length < days then 0
  else
    let start := (bars.map Bar.close).getD (bars.length - days) 0
    let stop := (bars.map Bar.close).getD (bars.length - 1) 0
    (stop - start) / start * 100

/-- Trailing gain exactly as the spec words it (spec §4.1, restated by the
claim): `(Close[last] - Close[last - N]) / Close[last - N] * 100`, and 0
when the series has fewer than `N + 1` bars.  Stated from the spec's words
for comparison against the source's `percent_change`. -/
def specGain (bars : List Bar) (days : Nat) : ℚ :=
  if bars.length < days + 1 then 0
  else
    let start := (bars.map Bar.close).getD (bars.length - 1 - days) 0
    let stop := (bars.map Bar.close).getD (bars.length - 1) 0
    (stop - start) / start * 100

/-- Comparison `x > y` where `y` is a rolling-average entry that may be
NaN (`none`): pandas comparisons involving NaN are false. -/
def gtNaN (x : ℚ) : Option ℚ → Bool
  | none => false
  | some v => decide (v < x)

/-- Line 80 `df["Close"].iloc[-1]`. -/
def lastClose (fr : Frame) : ℚ := (fr.bars.map Bar.close).getD (fr.bars.length - 1) 0

/-- Line 80 `df["10SMA"].iloc[-1]` (the column has one entry per bar). -/
def lastSMA10 (fr : Frame) : Option ℚ := fr.sma10.getD (fr.bars.length - 1) none

/-- Line 81 `df["20SMA"].iloc[-1]`. -/
def lastSMA20 (fr : Frame) : Option ℚ := fr.sma20.getD (fr.bars.length - 1) none

/-- The four user-set thresholds of lines 20-23. -/
structure Config where
  min_volume : ℚ
  min_adr : ℚ
  min_gain_1m : ℚ
  min_gain_3m : ℚ
deriving DecidableEq

/-- Lines 72-82: the per-ticker scalar indicators computed in the scan loop. -/
structure Metrics where
  avg_vol : ℚ
  avg_adr : ℚ
  gain_1m : ℚ
  gain_3m : ℚ
  gain_6m : ℚ
  cons : ℚ
  above_sma : Bool
deriving DecidableEq

/-- Lines 72-82 as a function of the enriched frame. -/
def computeMetrics (fr : Frame) : Metrics :=
  { avg_vol := listMean (fr.bars.map Bar.volume)
    avg_adr := listMean fr.adr
    gain_1m := percent_change fr.bars 21
    gain_3m := percent_change fr.bars 63
    gain_6m := percent_change fr.bars 126
    cons := consolidation_score fr.bars 10
    above_sma := gtNaN (lastClose fr) (lastSMA10 fr) && gtNaN (lastClose fr) (lastSMA20 fr) }

/-- Lines 84-91: the filter predicate (all six conditions ANDed). -/
def passes (cfg : Config) (m : Metrics) : Bool :=
  decide (cfg.min_volume ≤ m.avg_vol) && decide (cfg.min_adr ≤ m.avg_adr) &&
    decide (cfg.min_gain_1m ≤ m.gain_1m) && decide (cfg.min_gain_3m ≤ m.gain_3m) &&
    m.above_sma && decide (m.cons < 1 / 10)

/-- Floor of a rational (`Int.fdiv` is floor division; the denominator is
positive).  Used only to embed Python rounding, executably. -/
def ratFloor (x : ℚ) : ℤ := Int.fdiv x.num (x.den : ℤ)

/-- Python `round` to an integer on an exact value: round half to even. -/
def pyRound0 (x : ℚ) : ℤ :=
  if x - (ratFloor x : ℚ) < 1 / 2 then ratFloor x
  else if (1 : ℚ) / 2 < x - (ratFloor x : ℚ) then ratFloor x + 1
  else if ratFloor x % 2 = 0 then ratFloor x else ratFloor x + 1

/-- Python `round(x, d)` on an exact value. -/
def pyRound (x : ℚ) (d : Nat) : ℚ := (pyRound0 (x * 10 ^ d) : ℚ) / 10 ^ d

/-- Python `int(x)`: truncation toward zero. -/
def pyInt (x : ℚ) : ℤ := if 0 ≤ x then ratFloor x else -ratFloor (-x)

/-- A Python string, as a list of characters. -/
abbrev PyStr := List Char

/-- A ticker symbol. -/
abbrev Ticker := PyStr

/-- One Scan Result Row (the dict appended on lines 92-102). -/
structure Row where
  ticker : Ticker
  gain1m : ℚ
  gain3m : ℚ
  gain6m : ℚ
  avgVolume : ℤ
  adrPct : ℚ
  consolidation : ℚ
deriving DecidableEq

/-- Lines 92-102: the result row built from a ticker's metrics. -/
def mkRow (tkr : Ticker) (m : Metrics) : Row :=
  { ticker := tkr
    gain1m := pyRound m.gain_1m 1
    gain3m := pyRound m.gain_3m 1
    gain6m := pyRound m.gain_6m 1
    avgVolume := pyInt m.avg_vol
    adrPct := pyRound m.avg_adr 2
    consolidation := pyRound m.cons 3 }

/-- The characters removed by Python `str.strip()` (ASCII whitespace). -/
def pyIsSpace (c : Char) : Bool :=
  c = ' ' || c = '\t' || c = '\n' || c = '\r' || c = '\x0b' || c = '\x0c'

/-- Python `str.strip()`: drop leading and trailing whitespace. -/
def pyStrip (s : PyStr) : PyStr :=
  ((s.dropWhile pyIsSpace).reverse.dropWhile pyIsSpace).reverse

/-- Python `str.split(sep)` for a one-character separator; note
`"".split(",") == [""]`. -/
def pySplitAux (sep : Char) : PyStr → PyStr → List PyStr
  | [], acc => [acc.reverse]
  | c :: rest, acc =>
    if c = sep then acc.reverse :: pySplitAux sep rest [] else pySplitAux sep rest (c :: acc)

/-- Python `str.split(sep)`. -/
def pySplit (sep : Char) (s : PyStr) : List PyStr := pySplitAux sep s []

/-- The ASCII case map of Python `str.upper()`, per character: `'a'`-`'z'`
map to `'A'`-`'Z'`, anything else is unchanged. -/
def upperMap : List (Char × Char) :=
  [('a', 'A'), ('b', 'B'), ('c', 'C'), ('d', 'D'), ('e', 'E'), ('f', 'F'), ('g', 'G'),
   ('h', 'H'), ('i', 'I'), ('j', 'J'), ('k', 'K'), ('l', 'L'), ('m', 'M'), ('n', 'N'),
   ('o', 'O'), ('p', 'P'), ('q', 'Q'), ('r', 'R'), ('s', 'S'), ('t', 'T'), ('u', 'U'),
   ('v', 'V'), ('w', 'W'), ('x', 'X'), ('y', 'Y'), ('z', 'Z')]

/-- Python `str.upper()` on one character (ASCII). -/
def pyUpperChar (c : Char) : Char :=
  ((upperMap.find? (fun p => p.1 == c)).map Prod.snd).getD c

/-- Python `str.upper()` (ASCII, which covers ticker symbols). -/
def pyUpper (s : PyStr) : PyStr := s.map pyUpperChar

/-- An ASCII lower-case letter (what Python `str.islower` tests on the
ASCII range). -/
def pyIsLower (c : Char) : Bool := (upperMap.find? (fun p => p.1 == c)).isSome

/-- Line 65: `[t.strip().upper() for t in tickers_input.split(",") if t.strip()]`. -/
def parseTickers (s : PyStr) : List Ticker :=
  ((pySplit ',' s).filter (fun t => !(pyStrip t).isEmpty)).map (fun t => pyUpper (pyStrip t))

/-- Lines 67-102 for one ticker: skip when the fetched frame is empty
(line 69), otherwise emit a row exactly when the filter passes. -/
def scanTicker (cfg : Config) (tkr : Ticker) (fr : Frame) : Option Row :=
  if fr.bars.isEmpty then none
  else if passes cfg (computeMetrics fr) then some (mkRow tkr (computeMetrics fr)) else none

/-- The scan loop over an already-parsed ticker list, collecting `results`
in input order. -/
def scanList (cfg : Config) (env : Ticker → Except Unit (List Bar)) (l : List Ticker) :
    List Row :=
  l.filterMap (fun tkr => scanTicker cfg tkr (fetch_data (env tkr)))

/-- Lines 64-102: parse the raw ticker text, then scan each ticker in order. -/
def scanRows (cfg : Config) (env : Ticker → Except Unit (List Bar)) (s : PyStr) : List Row :=
  scanList cfg env (parseTickers s)

/-- The sort key comparison of line 105: by the rounded `"3M Gain %"` field. -/
def rowLE (a b : Row) : Bool := decide (a.gain3m ≤ b.gain3m)

/-- Line 105: `sort_values("3M Gain %", ascending=False)`, as a canonical
representative: pandas `nargsort` reverses the rows, argsorts ascending
and reverses back, here with a stable kernel sort.  The program's default
`kind='quicksort'` kernel guarantees the key order but NOT this tie order
(see `npyArgsort` and `sortValuesDescNumpy` below for the faithful
kernel), so this representative is used only for properties that are
invariant under reordering rows with equal keys: membership and emptiness
of the result table. -/
def sortDesc (l : List Row) : List Row := ((l.reverse).mergeSort rowLE).reverse

/-- Lines 104-107: the displayed result table — all matching rows, sorted. -/
def scanSorted (cfg : Config) (env : Ticker → Except Unit (List Bar)) (s : PyStr) :
    List Row :=
  sortDesc (scanRows cfg env s)

/-- Line 27: the initial content of the ticker text area. -/
def defaultTickersText : PyStr := "AAPL,TSLA,NVDA,AMZN,MSFT,META,AMD,NFLX,GOOG".data

/-- Lines 20-23: the default thresholds. -/
def defaultConfig : Config := ⟨50000, 4, 50, 100⟩

/-- Synthetic daily bar for the concrete scenarios: Close rises one point
per bar (so the latest Close sits strictly above both moving averages),
the daily range is zero and volume is constant. -/
def sampleBar (i : Nat) : Bar :=
  { opn := (i : ℚ) + 100, high := (i : ℚ) + 100, low := (i : ℚ) + 100,
    close := (i : ℚ) + 100, volume := 100000 }

/-- A synthetic Bar Series of `n` bars. -/
def sampleBars (n : Nat) : List Bar := (List.range n).map sampleBar

/-- A fully permissive threshold configuration, under which the 20-bar
sample series passes every filter condition. -/
def cfg0 : Config := ⟨0, 0, 0, 0⟩

/-- A data provider returning the 20-bar sample series for every ticker. -/
def env0 : Ticker → Except Unit (List Bar) := fun _ => Except.ok (sampleBars 20)

/-- A data provider that raises for the ticker `BAD` and returns the
20-bar sample series for every other ticker. -/
def envBad : Ticker → Except Unit (List Bar) :=
  fun t => if t = "BAD".data then Except.error () else Except.ok (sampleBars 20)

/-- A data provider returning a 19-bar series for every ticker. -/
def env19 : Ticker → Except Unit (List Bar) := fun _ => Except.ok (sampleBars 19)

/-- A junk row for out-of-range `getD` reads; every indexer built below
stays in range, so it is never actually selected. -/
def dummyRow : Row := ⟨[], 0, 0, 0, 0, 0, 0⟩

/-- numpy npysort `SMALL_QUICKSORT`: a segment with `pr - pl` at most this
(16 positions) is insertion sorted instead of partitioned. -/
def smallQuicksort : Nat := 15

/-- Fueled helper for `npyGetMsb` (the fuel dominates the logarithm). -/
def npyGetMsbAux : Nat → Nat → Nat
  | _, 0 => 0
  | n, fuel + 1 => if 2 ≤ n then npyGetMsbAux (n / 2) fuel + 1 else 0

/-- numpy `npy_get_msb`: index of the most significant set bit (0 for 0). -/
def npyGetMsb (n : Nat) : Nat := npyGetMsbAux n n

/-- `v[*p]` of numpy's argsort kernels: the key at the index stored at
position `p` of the index array `tosort`. -/
def keyAt (v : Array ℚ) (ts : Array Nat) (p : Nat) : ℚ := v.getD (ts.getD p 0) 0

/-- `INTP_SWAP` of two positions of the index array. -/
def tsSwap (ts : Array Nat) (i j : Nat) : Array Nat :=
  let a := ts.getD i 0
  let b := ts.getD j 0
  (ts.setD i b).setD j a

/-- `do ++pi; while (v[*pi] < vp)` of the aquicksort partition. -/
def aqsScanUp (v : Array ℚ) (ts : Array Nat) (vp : ℚ) : Nat → Nat → Nat
  | pi, 0 => pi + 1
  | pi, fuel + 1 =>
    let pi' := pi + 1
    if keyAt v ts pi' < vp then aqsScanUp v ts vp pi' fuel else pi'

/-- `do --pj; while (vp < v[*pj])` of the aquicksort partition. -/
def aqsScanDown (v : Array ℚ) (ts : Array Nat) (vp : ℚ) : Nat → Nat → Nat
  | pj, 0 => pj - 1
  | pj, fuel + 1 =>
    let pj' := pj - 1
    if vp < keyAt v ts pj' then aqsScanDown v ts vp pj' fuel else pj'

/-- The swap loop of the aquicksort partition; returns the final `pi`. -/
def aqsPartLoop (v : Array ℚ) (vp : ℚ) : Array Nat → Nat → Nat → Nat → Array Nat × Nat
  | ts, pi, _, 0 => (ts, pi)
  | ts, pi, pj, fuel + 1 =>
    let pi' := aqsScanUp v ts vp pi (ts.size + 1)
    let pj' := aqsScanDown v ts vp pj (ts.size + 1)
    if pj' ≤ pi' then (ts, pi')
    else aqsPartLoop v vp (tsSwap ts pi' pj') pi' pj' fuel

/-- One aquicksort partition of positions `pl..pr`: median-of-3 pivot
moved before `pr`, Hoare-style scans, pivot restored at the meeting point;
returns the updated index array and the pivot position `pi`. -/
def aqsPartition (v : Array ℚ) (ts : Array Nat) (pl pr : Nat) : Array Nat × Nat :=
  let pm := pl + (pr - pl) / 2
  let ts := if keyAt v ts pm < keyAt v ts pl then tsSwap ts pm pl else ts
  let ts := if keyAt v ts pr < keyAt v ts pm then tsSwap ts pr pm else ts
  let ts := if keyAt v ts pm < keyAt v ts pl then tsSwap ts pm pl else ts
  let vp := keyAt v ts pm
  let pj := pr - 1
  let ts := tsSwap ts pm pj
  let (ts, pi) := aqsPartLoop v vp ts pl pj (ts.size + 1)
  let ts := tsSwap ts pi (pr - 1)
  (ts, pi)

/-- The shift loop of aquicksort's insertion sort; returns the final `pj`. -/
def aqsInsShift (v : Array ℚ) (pl : Nat) (vp : ℚ) : Array Nat → Nat → Nat → Array Nat × Nat
  | ts, pj, 0 => (ts, pj)
  | ts, pj, fuel + 1 =>
    if pl < pj ∧ vp < keyAt v ts (pj - 1) then
      aqsInsShift v pl vp (ts.setD pj (ts.getD (pj - 1) 0)) (pj - 1) fuel
    else (ts, pj)

/-- aquicksort's insertion sort of positions `pl..pr` (run from `pl+1`). -/
def aqsInsSort (v : Array ℚ) (pl pr : Nat) : Array Nat → Nat → Nat → Array Nat
  | ts, _, 0 => ts
  | ts, pi, fuel + 1 =>
    if pi ≤ pr then
      let vi := ts.getD pi 0
      let vp := v.getD vi 0
      let (ts', pj) := aqsInsShift v pl vp ts pi (ts.size + 1)
      aqsInsSort v pl pr (ts'.setD pj vi) (pi + 1) fuel
    else ts

/-- The sift-down loop of numpy `aheapsort`, with the 1-based convention
`a[k] = ts[base + k - 1]`; `tmp` is the saved tosort value being sifted.
Returns the array and the final `i`. -/
def aqsHeapSift (v : Array ℚ) (base n : Nat) (tmp : Nat) :
    Array Nat → Nat → Nat → Nat → Array Nat × Nat
  | ts, i, _, 0 => (ts, i)
  | ts, i, j, fuel + 1 =>
    if j ≤ n then
      let j := if j < n ∧ v.getD (ts.getD (base + j - 1) 0) 0 < v.getD (ts.getD (base + j) 0) 0
        then j + 1 else j
      if v.getD tmp 0 < v.getD (ts.getD (base + j - 1) 0) 0 then
        aqsHeapSift v base n tmp (ts.setD (base + i - 1) (ts.getD (base + j - 1) 0)) j (j + j) fuel
      else (ts, i)
    else (ts, i)

/-- aheapsort's heapify phase: `for (l = n >> 1; l > 0; --l)`. -/
def aqsHeapify (v : Array ℚ) (base n : Nat) : Array Nat → Nat → Nat → Array Nat
  | ts, _, 0 => ts
  | ts, l, fuel + 1 =>
    if 0 < l then
      let tmp := ts.getD (base + l - 1) 0
      let (ts', i) := aqsHeapSift v base n tmp ts l (l + l) (n + 2)
      aqsHeapify v base n (ts'.setD (base + i - 1) tmp) (l - 1) fuel
    else ts

/-- aheapsort's extraction phase: `for (; n > 1;)`. -/
def aqsHeapExtract (v : Array ℚ) (base : Nat) : Array Nat → Nat → Nat → Array Nat
  | ts, _, 0 => ts
  | ts, n, fuel + 1 =>
    if 1 < n then
      let tmp := ts.getD (base + n - 1) 0
      let ts := ts.setD (base + n - 1) (ts.getD base 0)
      let n' := n - 1
      let (ts', i) := aqsHeapSift v base n' tmp ts 1 2 (n' + 2)
      aqsHeapExtract v base (ts'.setD (base + i - 1) tmp) n' fuel
    else ts

/-- numpy `aheapsort` on the segment of `num` positions starting at
`base` — the introsort fallback when the depth limit is exceeded. -/
def aheapsortSeg (v : Array ℚ) (ts : Array Nat) (base num : Nat) : Array Nat :=
  aqsHeapExtract v base (aqsHeapify v base num ts (num / 2) (num + 2)) num (num + 2)

/-- aquicksort's partition loop `while ((pr - pl) > SMALL_QUICKSORT)`,
with the depth check `if (depth_limit-- < 0)` before each partition and
the larger partition pushed on the explicit stack.  The final component
records whether the depth limit diverted the segment to heapsort (the
`goto stack_pop`, which skips the insertion sort). -/
def aqsWhile (v : Array ℚ) :
    Array Nat → Nat → Nat → List (Nat × Nat) → Int → Nat →
      Array Nat × Nat × Nat × List (Nat × Nat) × Int × Bool
  | ts, pl, pr, stk, depth, 0 => (ts, pl, pr, stk, depth, false)
  | ts, pl, pr, stk, depth, fuel + 1 =>
    if smallQuicksort < pr - pl then
      if depth < 0 then
        (aheapsortSeg v ts pl (pr + 1 - pl), pl, pr, stk, depth - 1, true)
      else
        let (ts', pi) := aqsPartition v ts pl pr
        if pi - pl < pr - pi then
          aqsWhile v ts' pl (pi - 1) ((pi + 1, pr) :: stk) (depth - 1) fuel
        else
          aqsWhile v ts' (pi + 1) pr ((pl, pi - 1) :: stk) (depth - 1) fuel
    else (ts, pl, pr, stk, depth, false)

/-- aquicksort's outer `for (;;)` loop: partition phase, then the
insertion sort of the remaining small segment (unless heapsort already
handled it), then pop the next segment off the stack. -/
def aqsOuter (v : Array ℚ) :
    Array Nat → Nat → Nat → List (Nat × Nat) → Int → Nat → Array Nat
  | ts, _, _, _, _, 0 => ts
  | ts, pl, pr, stk, depth, fuel + 1 =>
    let (ts1, pl1, pr1, stk1, depth1, didHeap) := aqsWhile v ts pl pr stk depth (ts.size + 1)
    let ts2 := if didHeap then ts1 else aqsInsSort v pl1 pr1 ts1 (pl1 + 1) (ts1.size + 1)
    match stk1 with
    | [] => ts2
    | (pl2, pr2) :: rest => aqsOuter v ts2 pl2 pr2 rest depth1 fuel

/-- numpy `argsort(kind='quicksort')`: introsort over an index array
initialised to `0..n-1`, returning the positions that put the keys in
ascending order, with equal keys in an arbitrary, input-dependent order.
Transliterated from numpy's npysort `quicksort` (`aquicksort_`, with
`depth_limit = 2 * npy_get_msb(num)`) and `heapsort` (`aheapsort_`);
every loop carries ample fuel and returns its current state if the fuel
runs out, which no input used here approaches. -/
def npyArgsort (ks : List ℚ) : List Nat :=
  let v : Array ℚ := ks.toArray
  let n := ks.length
  let ts : Array Nat := (List.range n).toArray
  (aqsOuter v ts 0 (n - 1) [] ((2 * npyGetMsb n : Nat) : Int) (n + 2)).toList

/-- The table pandas displays for `sort_values(key, ascending=False)` when
the kernel argsort of the reversed key column returns `a`: `nargsort`
reverses the keys and the index array (so kernel position `p` is original
row `n - 1 - p`), composes, and reverses the resulting indexer; the rows
are then taken in indexer order. -/
def applyArgsortDesc (rows : List Row) (a : List Nat) : List Row :=
  ((a.map (fun p => rows.length - 1 - p)).reverse).map (fun i => rows.getD i dummyRow)

/-- Line 105 with the faithful kernel: `sort_values("3M Gain %",
ascending=False)` under the default `kind='quicksort'`, i.e. `nargsort`
around numpy's aquicksort.  This is the model of the tie order the
program actually produces. -/
def sortValuesDescNumpy (rows : List Row) : List Row :=
  applyArgsortDesc rows (npyArgsort ((rows.reverse).map Row.gain3m))

/-- Seventeen one-letter tickers; under `cfg0`/`env0` every one matches
with identical metrics, so the scan yields 17 rows whose 3-month gains
are all equal — enough rows to leave numpy's insertion-sort regime. -/
def tickers17Text : PyStr := "A,B,C,D,E,F,G,H,I,J,K,L,M,N,O,P,Q".data

/-- The row the 20-bar sample series produces for a given ticker. -/
def sampleRow (t : Ticker) : Row :=
  mkRow t (computeMetrics (fetch_data (Except.ok (sampleBars 20))))

/-- The 17 rows the scan of `tickers17Text` produces, in input order. -/
def rows17 : List Row :=
  ["A".data, "B".data, "C".data, "D".data, "E".data, "F".data, "G".data, "H".data,
   "I".data, "J".data, "K".data, "L".data, "M".data, "N".data, "O".data, "P".data,
   "Q".data].map sampleRow

/-- Claim C2, counterexample.  The claim's formula reads the close `N` bars
before the last and reports 0 below `N + 1` bars (`specGain`); the source's
`percent_change` reads `iloc[-days]`, the close `N - 1` bars before the
last, and computes the formula already at exactly `N` bars.  At a 22-bar
series with closes 100..121 the code returns `(121-101)/101*100` where the
claim's formula gives `(121-100)/100*100`, and at a 21-bar series the code
returns a nonzero gain where the claim requires 0. -/
theorem percent_change_deviates_from_claim :
    percent_change (sampleBars 22) 21 ≠ specGain (sampleBars 22) 21 ∧
    percent_change (sampleBars 21) 21 ≠ 0 ∧ specGain (sampleBars 21) 21 = 0 := by
  with_unfolding_all decide

/-- Claim C2, amended: for every Bar Series and positive horizon `N`, the
code's trailing gain over `N` bars equals the spec's formula taken at
horizon `N - 1` — i.e. `(Close[last] - Close[last-(N-1)]) / Close[last-(N-1)] × 100` —
and a series with fewer than `N` (not `N + 1`) bars yields 0 rather than
an error. -/
theorem percent_change_eq_specGain_pred (bars : List Bar) (days : Nat) (h : 1 ≤ days) :
    percent_change bars days = specGain bars (days - 1) := by
  unfold percent_change specGain
  have h1 : days - 1 + 1 = days := by omega
  have h2 : bars.length - 1 - (days - 1) = bars.length - days := by omega
  rw [h1, h2]

/-- Witness for C2's amended theorem at a concrete 22-bar series. -/
theorem percent_change_eq_specGain_pred_witness :
    percent_change (sampleBars 22) 21 = specGain (sampleBars 22) 20 :=
  percent_change_eq_specGain_pred (sampleBars 22) 21 (by decide)

/-- Claim C5, counterexample.  With thresholds and a data provider under
which every default ticker produces a row, scanning the empty input
produces no rows at all while scanning the default text produces rows: an
empty supplied ticker list is not replaced by the default list. -/
theorem empty_input_does_not_use_default_tickers :
    scanRows cfg0 env0 [] = [] ∧ scanRows cfg0 env0 defaultTickersText ≠ [] := by
  with_unfolding_all decide

/-- Claim C5, amended: the default ticker list is only the initial content
of the input widget; an empty supplied input parses to an empty ticker
list, and the scan over it produces no rows (no fallback to the default
list occurs). -/
theorem empty_input_scans_no_tickers (cfg : Config) (env : Ticker → Except Unit (List Bar)) :
    parseTickers [] = [] ∧ scanSorted cfg env [] = [] := by
  refine ⟨rfl, ?_⟩
  have h : scanRows cfg env [] = [] := rfl
  show sortDesc (scanRows cfg env []) = []
  rw [h]
  simp [sortDesc]

/-- Claim C6: lines 41-50 wrap the download and enrichment in
`try/except`, so a retrieval or computation fault for one ticker yields
the empty frame; the faulting ticker is skipped with no row emitted
(line 69), and the scan of the remaining tickers before and after it is
unchanged — the fault never aborts the batch. -/
theorem fault_is_skipped_and_batch_continues (cfg : Config)
    (env : Ticker → Except Unit (List Bar)) (t : Ticker) (l1 l2 : List Ticker) (e : Unit)
    (herr : env t = Except.error e) :
    scanTicker cfg t (fetch_data (env t)) = none ∧
    scanList cfg env (l1 ++ t :: l2) = scanList cfg env (l1 ++ l2) := by
  have h1 : scanTicker cfg t (fetch_data (env t)) = none := by rw [herr]; rfl
  refine ⟨h1, ?_⟩
  unfold scanList
  rw [List.filterMap_append, List.filterMap_append, List.filterMap_cons, h1]

/-- Witness for C6: a provider that fails on `BAD` skips it while `AAPL`
and `MSFT` are still scanned. -/
theorem fault_is_skipped_witness :
    scanTicker cfg0 "BAD".data (fetch_data (envBad "BAD".data)) = none ∧
    scanList cfg0 envBad (["AAPL".data] ++ "BAD".data :: ["MSFT".data]) =
      scanList cfg0 envBad (["AAPL".data] ++ ["MSFT".data]) :=
  fault_is_skipped_and_batch_continues cfg0 envBad "BAD".data ["AAPL".data] ["MSFT".data] ()
    (by with_unfolding_all rfl)

/-- Entry `i` of `rolling(w).mean()`: the trailing-window mean once `w`
values are available, undefined (`none`) before that. -/
lemma rollingMean_getD (w : Nat) (xs : List ℚ) (i : Nat) (h : i < xs.length) :
    (rollingMean w xs).getD i none =
      if w ≤ i + 1 then some (((xs.take (i + 1)).drop (i + 1 - w)).sum / (w : ℚ)) else none := by
  unfold rollingMean
  rw [List.getD_eq_getElem?_getD, List.getElem?_map, List.getElem?_range h]
  rfl

/-- Mean of a dropped suffix whose length is known. -/
lemma listMean_drop_sum (xs : List ℚ) (k w : Nat) (h : xs.length - k = w) :
    listMean (xs.drop k) = (xs.drop k).sum / (w : ℚ) := by
  rw [listMean, List.length_drop, h]

/-- Claim C7: on a series of at least 20 clean bars, the `10SMA` entry at
the last index is the arithmetic mean of the last 10 Close values and the
`20SMA` entry is the mean of the last 20; positions before index 9 and 19
respectively carry no defined value (`none`, pandas NaN). -/
theorem sma_last_is_mean_and_heads_undefined (bars : List Bar) (i j : Nat)
    (h : 20 ≤ bars.length) (hi : i < 9) (hj : j < 19) :
    lastSMA10 (fetch_data (Except.ok bars)) =
      some (listMean ((bars.map Bar.close).drop (bars.length - 10))) ∧
    lastSMA20 (fetch_data (Except.ok bars)) =
      some (listMean ((bars.map Bar.close).drop (bars.length - 20))) ∧
    (fetch_data (Except.ok bars)).sma10.getD i none = none ∧
    (fetch_data (Except.ok bars)).sma20.getD j none = none := by
  have hlen : (bars.map Bar.close).length = bars.length := List.length_map _ _
  have h1 : bars.length - 1 + 1 = bars.length := by omega
  have htake : (bars.map Bar.close).take bars.length = bars.map Bar.close := by
    rw [← hlen]; exact List.take_length _
  refine ⟨?_, ?_, ?_, ?_⟩
  · show (rollingMean 10 (bars.map Bar.close)).getD (bars.length - 1) none = _
    rw [rollingMean_getD 10 _ _ (by omega), if_pos (by omega), h1, htake,
      listMean_drop_sum _ _ 10 (by omega)]
  · show (rollingMean 20 (bars.map Bar.close)).getD (bars.length - 1) none = _
    rw [rollingMean_getD 20 _ _ (by omega), if_pos (by omega), h1, htake,
      listMean_drop_sum _ _ 20 (by omega)]
  · show (rollingMean 10 (bars.map Bar.close)).getD i none = none
    rw [rollingMean_getD 10 _ _ (by omega), if_neg (by omega)]
  · show (rollingMean 20 (bars.map Bar.close)).getD j none = none
    rw [rollingMean_getD 20 _ _ (by omega), if_neg (by omega)]

/-- Witness for C7 at the 20-bar sample series, with undefined positions 5
and 15. -/
theorem sma_last_is_mean_witness :
    lastSMA10 (fetch_data (Except.ok (sampleBars 20))) =
      some (listMean (((sampleBars 20).map Bar.close).drop ((sampleBars 20).length - 10))) ∧
    lastSMA20 (fetch_data (Except.ok (sampleBars 20))) =
      some (listMean (((sampleBars 20).map Bar.close).drop ((sampleBars 20).length - 20))) ∧
    (fetch_data (Except.ok (sampleBars 20))).sma10.getD 5 none = none ∧
    (fetch_data (Except.ok (sampleBars 20))).sma20.getD 15 none = none :=
  sma_last_is_mean_and_heads_undefined (sampleBars 20) 5 15
    (by with_unfolding_all decide) (by decide) (by decide)

/-- Folding `max` never goes below the seed. -/
lemma le_foldl_max (b : ℚ) (l : List ℚ) : b ≤ l.foldl max b := by
  induction l generalizing b with
  | nil => exact le_refl b
  | cons c l ih => exact le_trans (le_max_left b c) (ih (max b c))

/-- Folding `max` dominates every member. -/
lemma mem_le_foldl_max (x b : ℚ) (l : List ℚ) (h : x ∈ l) : x ≤ l.foldl max b := by
  induction l generalizing b with
  | nil => cases h
  | cons c l ih =>
    rcases List.mem_cons.mp h with rfl | h'
    · exact le_trans (le_max_right b x) (le_foldl_max (max b x) l)
    · exact ih (max b c) h'

/-- `Series.max()` dominates every member. -/
lemma le_listMax (x : ℚ) (l : List ℚ) (h : x ∈ l) : x ≤ listMax l := by
  cases l with
  | nil => cases h
  | cons a l =>
    rcases List.mem_cons.mp h with rfl | h'
    · exact le_foldl_max x l
    · exact mem_le_foldl_max x a l h'

/-- Folding `min` never exceeds the seed. -/
lemma foldl_min_le (b : ℚ) (l : List ℚ) : l.foldl min b ≤ b := by
  induction l generalizing b with
  | nil => exact le_refl b
  | cons c l ih => exact le_trans (ih (min b c)) (min_le_left b c)

/-- Folding `min` is below every member. -/
lemma foldl_min_le_mem (x b : ℚ) (l : List ℚ) (h : x ∈ l) : l.foldl min b ≤ x := by
  induction l generalizing b with
  | nil => cases h
  | cons c l ih =>
    rcases List.mem_cons.mp h with rfl | h'
    · exact le_trans (foldl_min_le (min b x) l) (min_le_right b x)
    · exact ih (min b c) h'

/-- `Series.min()` is below every member. -/
lemma listMin_le (x : ℚ) (l : List ℚ) (h : x ∈ l) : listMin l ≤ x := by
  cases l with
  | nil => cases h
  | cons a l =>
    rcases List.mem_cons.mp h with rfl | h'
    · exact foldl_min_le x l
    · exact foldl_min_le_mem x a l h'

/-- A mean of nonnegative values is nonnegative. -/
lemma listMean_nonneg (l : List ℚ) (h : ∀ x ∈ l, 0 ≤ x) : 0 ≤ listMean l :=
  div_nonneg (List.sum_nonneg h) (Nat.cast_nonneg _)

/-- Claim C8: on any non-empty series of valid bars (`Low ≤ High`,
positive `Close`), the consolidation score — the High-Low range of the
last 10 bars over their mean Close — is nonnegative. -/
theorem consolidation_score_nonneg (bars : List Bar) (hne : bars ≠ [])
    (hhl : ∀ b ∈ bars, b.low ≤ b.high) (hc : ∀ b ∈ bars, 0 < b.close) :
    0 ≤ consolidation_score bars 10 := by
  unfold consolidation_score
  apply div_nonneg
  · have hlen0 : bars.length ≠ 0 := by
      intro h0
      exact hne (List.length_eq_zero.mp h0)
    have hrec : bars.drop (bars.length - 10) ≠ [] := by
      intro hd
      have hld := List.length_drop (bars.length - 10) bars
      rw [hd] at hld
      simp only [List.length_nil] at hld
      omega
    obtain ⟨b0, hb0⟩ := List.exists_mem_of_ne_nil _ hrec
    have hb0' : b0 ∈ bars := List.drop_subset _ _ hb0
    have h1 : listMin ((bars.drop (bars.length - 10)).map Bar.low) ≤ b0.low :=
      listMin_le _ _ (List.mem_map_of_mem _ hb0)
    have h2 : b0.high ≤ listMax ((bars.drop (bars.length - 10)).map Bar.high) :=
      le_listMax _ _ (List.mem_map_of_mem _ hb0)
    have h3 := hhl b0 hb0'
    linarith
  · apply listMean_nonneg
    intro x hx
    rcases List.mem_map.mp hx with ⟨b, hb, rfl⟩
    exact le_of_lt (hc b (List.drop_subset _ _ hb))

/-- Witness for C8 at the 20-bar sample series. -/
theorem consolidation_score_nonneg_witness :
    0 ≤ consolidation_score (sampleBars 20) 10 :=
  consolidation_score_nonneg (sampleBars 20) (by with_unfolding_all decide)
    (by with_unfolding_all decide) (by with_unfolding_all decide)

/-- The sort of line 105 permutes the rows but never adds or removes one. -/
lemma mem_sortDesc (r : Row) (l : List Row) : r ∈ sortDesc l ↔ r ∈ l := by
  unfold sortDesc
  rw [List.mem_reverse, (List.mergeSort_perm l.reverse rowLE).mem_iff, List.mem_reverse]

/-- What an emitted row tells us: the frame was non-empty, the filter
passed, and the row is the one built on lines 92-102. -/
lemma scanTicker_eq_some {cfg : Config} {tkr : Ticker} {fr : Frame} {r : Row}
    (h : scanTicker cfg tkr fr = some r) :
    fr.bars.isEmpty = false ∧ passes cfg (computeMetrics fr) = true ∧
      r = mkRow tkr (computeMetrics fr) := by
  unfold scanTicker at h
  by_cases h1 : fr.bars.isEmpty = true
  · rw [if_pos h1] at h
    cases h
  · rw [if_neg h1] at h
    by_cases h2 : passes cfg (computeMetrics fr) = true
    · rw [if_pos h2] at h
      exact ⟨by simpa using h1, h2, (Option.some_inj.mp h).symm⟩
    · rw [if_neg h2] at h
      cases h

/-- A non-empty frame that passes the filter emits its row. -/
lemma scanTicker_emits (cfg : Config) (tkr : Ticker) (fr : Frame)
    (h1 : fr.bars.isEmpty = false) (h2 : passes cfg (computeMetrics fr) = true) :
    scanTicker cfg tkr fr = some (mkRow tkr (computeMetrics fr)) := by
  unfold scanTicker
  rw [if_neg (by simp [h1]), if_pos h2]

/-- A ticker appears in the displayed table iff it was parsed from the
input and its evaluation emitted a row. -/
lemma ticker_mem_scanSorted (cfg : Config) (env : Ticker → Except Unit (List Bar))
    (input : PyStr) (t : Ticker) :
    t ∈ (scanSorted cfg env input).map Row.ticker ↔
      (t ∈ parseTickers input ∧ ∃ r, scanTicker cfg t (fetch_data (env t)) = some r) := by
  constructor
  · intro hmem
    rcases List.mem_map.mp hmem with ⟨r, hr, hticker⟩
    have hr2 : r ∈ scanRows cfg env input := (mem_sortDesc r _).mp hr
    unfold scanRows scanList at hr2
    rcases List.mem_filterMap.mp hr2 with ⟨t', ht', hsome⟩
    have hrow := (scanTicker_eq_some hsome).2.2
    have hteq : t' = t := by rw [hrow] at hticker; exact hticker
    subst hteq
    exact ⟨ht', ⟨r, hsome⟩⟩
  · rintro ⟨hmem, r, hsome⟩
    apply List.mem_map.mpr
    refine ⟨r, ?_, ?_⟩
    · apply (mem_sortDesc r _).mpr
      show r ∈ scanList cfg env (parseTickers input)
      exact List.mem_filterMap.mpr ⟨t, hmem, hsome⟩
    · rw [(scanTicker_eq_some hsome).2.2]
      rfl

/-- The filter of lines 84-91, unfolded into its six conditions. -/
lemma passes_iff (cfg : Config) (fr : Frame) :
    passes cfg (computeMetrics fr) = true ↔
      (cfg.min_volume ≤ listMean (fr.bars.map Bar.volume) ∧
       cfg.min_adr ≤ listMean fr.adr ∧
       cfg.min_gain_1m ≤ percent_change fr.bars 21 ∧
       cfg.min_gain_3m ≤ percent_change fr.bars 63 ∧
       (gtNaN (lastClose fr) (lastSMA10 fr) = true ∧
        gtNaN (lastClose fr) (lastSMA20 fr) = true) ∧
       consolidation_score fr.bars 10 < 1 / 10) := by
  simp [passes, computeMetrics, Bool.and_eq_true, decide_eq_true_iff, and_assoc]

/-- Claim C1: for every ticker parsed from the input whose fetched series
is non-empty (i.e. that the scan actually processes), a Scan Result Row
for it appears in the output iff all six filter conditions hold on its
computed indicators: mean volume at least `min_volume`, mean ADR percent
at least `min_adr`, 1-month gain at least `min_gain_1m`, 3-month gain at
least `min_gain_3m`, the latest Close strictly above both the latest
10-bar and 20-bar SMA, and consolidation score strictly below 0.1. -/
theorem scan_row_iff_six_conditions (cfg : Config) (env : Ticker → Except Unit (List Bar))
    (input : PyStr) (t : Ticker) (hmem : t ∈ parseTickers input)
    (hne : (fetch_data (env t)).bars.isEmpty = false) :
    t ∈ (scanSorted cfg env input).map Row.ticker ↔
      (cfg.min_volume ≤ listMean ((fetch_data (env t)).bars.map Bar.volume) ∧
       cfg.min_adr ≤ listMean (fetch_data (env t)).adr ∧
       cfg.min_gain_1m ≤ percent_change (fetch_data (env t)).bars 21 ∧
       cfg.min_gain_3m ≤ percent_change (fetch_data (env t)).bars 63 ∧
       (gtNaN (lastClose (fetch_data (env t))) (lastSMA10 (fetch_data (env t))) = true ∧
        gtNaN (lastClose (fetch_data (env t))) (lastSMA20 (fetch_data (env t))) = true) ∧
       consolidation_score (fetch_data (env t)).bars 10 < 1 / 10) := by
  rw [ticker_mem_scanSorted, ← passes_iff cfg (fetch_data (env t))]
  constructor
  · rintro ⟨-, r, hsome⟩
    exact (scanTicker_eq_some hsome).2.1
  · intro hp
    exact ⟨hmem, ⟨mkRow t (computeMetrics (fetch_data (env t))),
      scanTicker_emits cfg t _ hne hp⟩⟩

/-- Witness for C1: with permissive thresholds the sample ticker satisfies
all six conditions, and its row indeed appears. -/
theorem scan_row_iff_six_conditions_witness :
    "AAPL".data ∈ (scanSorted cfg0 env0 "AAPL".data).map Row.ticker :=
  (scan_row_iff_six_conditions cfg0 env0 "AAPL".data "AAPL".data
    (by with_unfolding_all decide) (by with_unfolding_all decide)).mpr
    (by with_unfolding_all decide)

/-- On a non-empty series of fewer than 20 bars, the last `20SMA` entry is
undefined (NaN). -/
lemma lastSMA20_short (bars : List Bar) (hnil : bars ≠ []) (hlen : bars.length < 20) :
    lastSMA20 (fetch_data (Except.ok bars)) = none := by
  have h0 : 0 < bars.length := List.length_pos.mpr hnil
  show (rollingMean 20 (bars.map Bar.close)).getD (bars.length - 1) none = none
  rw [rollingMean_getD 20 _ _ (by rw [List.length_map]; omega), if_neg (by omega)]

/-- A series of fewer than 20 bars never emits a row: the comparison of
the last Close against the undefined 20-bar SMA is false, so the filter
fails (and the empty series is skipped outright). -/
lemma scanTicker_short (cfg : Config) (tkr : Ticker) (bars : List Bar)
    (hlen : bars.length < 20) :
    scanTicker cfg tkr (fetch_data (Except.ok bars)) = none := by
  by_cases hnil : bars = []
  · subst hnil; rfl
  · have habove : (computeMetrics (fetch_data (Except.ok bars))).above_sma = false := by
      show (gtNaN (lastClose (fetch_data (Except.ok bars)))
          (lastSMA10 (fetch_data (Except.ok bars))) &&
        gtNaN (lastClose (fetch_data (Except.ok bars)))
          (lastSMA20 (fetch_data (Except.ok bars)))) = false
      rw [lastSMA20_short bars hnil hlen]
      simp [gtNaN]
    unfold scanTicker
    rw [if_neg ?hne, if_neg ?hp]
    case hne =>
      simp only [fetch_data]
      simp [List.isEmpty_iff, hnil]
    case hp =>
      simp [passes, habove]

/-- Claim C3, counterexample: a 19-bar cleaned series is not reported as
an empty (insufficient-data) result — `fetch_data` returns it enriched,
and partial 10-bar averages are already defined from index 9 on. -/
theorem short_series_still_enriched :
    (fetch_data (Except.ok (sampleBars 19))).bars.isEmpty = false ∧
    (fetch_data (Except.ok (sampleBars 19))).sma10.getD 9 none ≠ none := by
  with_unfolding_all decide

/-- Claim C3, amended: a cleaned series of fewer than 20 bars is not
reported as an empty result — partial averages are computed — but the
ticker is still excluded from the scan output, because its last 20-bar SMA
entry is undefined and the above-SMA comparison against it is false; in
particular a ticker with a 19-bar series yields no Scan Result Row. -/
theorem short_series_excluded (cfg : Config) (env : Ticker → Except Unit (List Bar))
    (input : PyStr) (t : Ticker) (bars : List Bar)
    (hfetch : env t = Except.ok bars) (hlen : bars.length < 20) :
    t ∉ (scanSorted cfg env input).map Row.ticker := by
  intro hmem
  rcases (ticker_mem_scanSorted cfg env input t).mp hmem with ⟨-, r, hsome⟩
  rw [hfetch, scanTicker_short cfg t bars hlen] at hsome
  cases hsome

/-- Witness for C3's amended theorem: a 19-bar series produces no row. -/
theorem short_series_excluded_witness :
    "AAPL".data ∉ (scanSorted cfg0 env19 "AAPL".data).map Row.ticker :=
  short_series_excluded cfg0 env19 "AAPL".data "AAPL".data (sampleBars 19) rfl
    (by with_unfolding_all decide)

/-- Claim C4, counterexample: seventeen tickers A..Q all produce rows
with equal 3-month gain, in input order A..Q; under the program's actual
kernel (numpy aquicksort, the default `kind='quicksort'`) the displayed
order is A, J, P, O, N, M, L, K, I, B, H, G, F, E, D, C, Q — row J
overtakes row B although B precedes J in the input and their gains are
equal, so ties do not keep input order. -/
theorem scan_sort_ties_reordered :
    scanRows cfg0 env0 tickers17Text = rows17 ∧
    rows17.map Row.ticker =
      ["A".data, "B".data, "C".data, "D".data, "E".data, "F".data, "G".data, "H".data,
       "I".data, "J".data, "K".data, "L".data, "M".data, "N".data, "O".data, "P".data,
       "Q".data] ∧
    (∀ r ∈ rows17, ∀ s ∈ rows17, r.gain3m = s.gain3m) ∧
    (sortValuesDescNumpy rows17).map Row.ticker =
      ["A".data, "J".data, "P".data, "O".data, "N".data, "M".data, "L".data, "K".data,
       "I".data, "B".data, "H".data, "G".data, "F".data, "E".data, "D".data, "C".data,
       "Q".data] :=
  ⟨by with_unfolding_all rfl, by with_unfolding_all decide,
   by with_unfolding_all decide, by with_unfolding_all decide⟩

/-- Taking original row `n - 1 - p` for every kernel position `p` in
order spells out the reversed row list. -/
lemma map_range_rev_getD (rows : List Row) :
    (List.range rows.length).map (fun p => rows.getD (rows.length - 1 - p) dummyRow) =
      rows.reverse := by
  apply List.ext_getElem
  · simp
  · intro i h1 h2
    simp only [List.getElem_map, List.getElem_range, List.getElem_reverse]
    have h3 : i < rows.length := by simpa using h1
    have h4 : rows.length - 1 - i < rows.length := by omega
    rw [List.getD_eq_getElem?_getD, List.getElem?_eq_getElem h4, Option.getD_some]

/-- The reversed key column read at a kernel position is the gain of the
corresponding original row. -/
lemma rev_gain_getD (rows : List Row) (i : Nat) (h : i < rows.length) :
    ((rows.reverse).map Row.gain3m).getD i 0 =
      (rows.getD (rows.length - 1 - i) dummyRow).gain3m := by
  have h1 : i < ((rows.reverse).map Row.gain3m).length := by simpa using h
  have h2 : rows.length - 1 - i < rows.length := by omega
  rw [List.getD_eq_getElem?_getD, List.getElem?_eq_getElem h1,
    List.getD_eq_getElem?_getD, List.getElem?_eq_getElem h2]
  simp [List.getElem_reverse]

/-- A member of a permutation of `range n` is below `n`. -/
lemma mem_lt_of_perm_range {a : List Nat} {n i : Nat}
    (ha : a.Perm (List.range n)) (hi : i ∈ a) : i < n :=
  List.mem_range.mp (ha.mem_iff.mp hi)

/-- Any kernel output that permutes the positions yields a table that
permutes the matched rows. -/
lemma applyArgsortDesc_perm (rows : List Row) (a : List Nat)
    (ha : a.Perm (List.range rows.length)) :
    (applyArgsortDesc rows a).Perm rows := by
  unfold applyArgsortDesc
  rw [List.map_reverse, List.map_map]
  refine (List.reverse_perm _).trans ((ha.map _).trans ?_)
  have h2 : (List.range rows.length).map
      ((fun i => rows.getD i dummyRow) ∘ (fun p => rows.length - 1 - p)) = rows.reverse := by
    simpa [Function.comp] using map_range_rev_getD rows
  rw [h2]
  exact List.reverse_perm rows

/-- Any kernel output along which the reversed keys are ascending yields
a table sorted descending by the key. -/
lemma applyArgsortDesc_sorted (rows : List Row) (a : List Nat)
    (ha : a.Perm (List.range rows.length))
    (hs : a.Pairwise (fun i j =>
      ((rows.reverse).map Row.gain3m).getD i 0 ≤ ((rows.reverse).map Row.gain3m).getD j 0)) :
    (applyArgsortDesc rows a).Pairwise (fun r s => s.gain3m ≤ r.gain3m) := by
  unfold applyArgsortDesc
  rw [List.map_reverse, List.map_map, List.pairwise_reverse, List.pairwise_map]
  refine hs.imp_of_mem ?_
  intro i j hi hj hle
  have hi' : i < rows.length := mem_lt_of_perm_range ha hi
  have hj' : j < rows.length := mem_lt_of_perm_range ha hj
  rw [rev_gain_getD rows i hi', rev_gain_getD rows j hj'] at hle
  simpa [Function.comp] using hle

/-- Claim C4, amended: for every scan, and every index order the kernel
argsort may return for the reversed 3-month-gain column — any permutation
of the positions along which those keys are ascending, which is all the
default `kind='quicksort'` guarantees — the displayed table is a
permutation of the matched rows sorted by the rounded 3-month gain in
descending order; the relative order of rows with equal gain is not
guaranteed and can differ from input order. -/
theorem scan_sorted_desc_for_any_kernel (cfg : Config)
    (env : Ticker → Except Unit (List Bar)) (input : PyStr) (a : List Nat)
    (ha : a.Perm (List.range (scanRows cfg env input).length))
    (hs : a.Pairwise (fun i j =>
      (((scanRows cfg env input).reverse).map Row.gain3m).getD i 0 ≤
        (((scanRows cfg env input).reverse).map Row.gain3m).getD j 0)) :
    (applyArgsortDesc (scanRows cfg env input) a).Perm (scanRows cfg env input) ∧
    (applyArgsortDesc (scanRows cfg env input) a).Pairwise
      (fun r s => s.gain3m ≤ r.gain3m) :=
  ⟨applyArgsortDesc_perm _ a ha, applyArgsortDesc_sorted _ a ha hs⟩

/-- Witness for C4's amended theorem at a concrete two-ticker scan and a
concrete kernel output. -/
theorem scan_sorted_desc_for_any_kernel_witness :
    (applyArgsortDesc (scanRows cfg0 env0 "AAPL,MSFT".data) [0, 1]).Perm
        (scanRows cfg0 env0 "AAPL,MSFT".data) ∧
    (applyArgsortDesc (scanRows cfg0 env0 "AAPL,MSFT".data) [0, 1]).Pairwise
        (fun r s => s.gain3m ≤ r.gain3m) :=
  scan_sorted_desc_for_any_kernel cfg0 env0 "AAPL,MSFT".data [0, 1]
    (by with_unfolding_all decide) (by with_unfolding_all decide)

/-- Uppercasing a character never yields an ASCII lower-case letter. -/
lemma pyIsLower_pyUpperChar (c : Char) : pyIsLower (pyUpperChar c) = false := by
  unfold pyUpperChar
  cases hf : upperMap.find? (fun p => p.1 == c) with
  | none => simp [pyIsLower, hf]
  | some p =>
    have hmem := List.mem_of_find?_eq_some hf
    have hall : ∀ q ∈ upperMap, pyIsLower q.2 = false := by decide
    simpa using hall p hmem

/-- Uppercasing preserves (non-)emptiness. -/
lemma pyUpper_isEmpty (s : PyStr) : (pyUpper s).isEmpty = s.isEmpty := by
  cases s <;> rfl

/-- Claim C10: the scan processes exactly the comma-separated fragments of
the raw input, stripped of surrounding whitespace and upper-cased, with
empty and whitespace-only fragments dropped; consequently every parsed
ticker is non-empty and contains no lower-case letter. -/
theorem parse_tickers_clean (s : PyStr) (t : Ticker) (c : Char)
    (hmem : t ∈ parseTickers s) (hc : c ∈ t) :
    t ≠ [] ∧ pyIsLower c = false ∧
      parseTickers s =
        ((pySplit ',' s).map (fun u => pyUpper (pyStrip u))).filter (fun u => !u.isEmpty) := by
  refine ⟨?_, ?_, ?_⟩
  · rcases List.mem_map.mp hmem with ⟨u, hu, rfl⟩
    have hne := (List.mem_filter.mp hu).2
    intro h0
    have h1 : pyStrip u = [] := List.map_eq_nil_iff.mp h0
    rw [h1] at hne
    cases hne
  · rcases List.mem_map.mp hmem with ⟨u, hu, rfl⟩
    rcases List.mem_map.mp hc with ⟨c', hc', rfl⟩
    exact pyIsLower_pyUpperChar c'
  · unfold parseTickers
    rw [List.filter_map]
    congr 1
    apply List.filter_congr
    intro u hu
    simp [Function.comp, pyUpper_isEmpty]

/-- Witness for C10 on a messy concrete input. -/
theorem parse_tickers_clean_witness :
    "AAPL".data ≠ [] ∧ pyIsLower 'A' = false ∧
      parseTickers "aapl, ,MSFT".data =
        ((pySplit ',' "aapl, ,MSFT".data).map (fun u => pyUpper (pyStrip u))).filter
          (fun u => !u.isEmpty) :=
  parse_tickers_clean "aapl, ,MSFT".data "AAPL".data 'A'
    (by with_unfolding_all decide) (by with_unfolding_all decide)

/-- Claim C9: the indicator pipeline is deterministic and stateless in the
embedding — re-running the column-enrichment step on an already-enriched
frame reproduces the frame exactly, and the derived metrics of the second
run coincide with those of the first. -/
theorem pipeline_idempotent (raw : Except Unit (List Bar)) :
    enrich (fetch_data raw) = fetch_data raw ∧
    computeMetrics (enrich (fetch_data raw)) = computeMetrics (fetch_data raw) := by
  cases raw with
  | error e => exact ⟨rfl, rfl⟩
  | ok bars => exact ⟨rfl, rfl⟩

end StockScreener
